import Mathlib

/-!
Verification of the core pipeline of an MQTT dialer bot: a client that
subscribes to one MQTT topic, scans each inbound payload for a phone
number, logs the message (bounded to 50 entries), and triggers a phone
call when a number is found.

Strings are modelled as `List Char` (sequences of Unicode scalar values;
every character relevant to the phone regex lies in the Basic Multilingual
Plane, so JS UTF-16 code-unit positions and scalar positions agree on all
behaviour proved here).
-/

/-! ## Phone-number extraction

The source scans a message with the regex `(\+?[\d\s\-\(\)]{7,15})` (global
flag), takes the first match if any, and deletes every character matching
`[\s\-\(\)]` from it.  Since nothing follows the greedy `{7,15}` quantifier,
a match attempt at a position succeeds exactly when an optional leading
`+` is followed by at least 7 characters of the class, and it consumes
`+` (when present) plus the first `min 15 k` characters of the maximal
class run of length `k`.
-/

/-- The character set of the JS `\s` escape: ASCII whitespace plus the
Unicode space separators, line/paragraph separators, NBSP, and BOM. -/
def isJsWhitespace (c : Char) : Bool :=
  c = ' ' || c = '\t' || c = '\n' || c.val = 11 || c.val = 12 || c = '\r' ||
  c.val = 0xa0 || c.val = 0x1680 || (0x2000 ≤ c.val && c.val ≤ 0x200a) ||
  c.val = 0x2028 || c.val = 0x2029 || c.val = 0x202f || c.val = 0x205f ||
  c.val = 0x3000 || c.val = 0xfeff

/-- Characters deleted by the cleanup `replace(/[\s\-\(\)]/g, '')`:
whitespace, hyphen, and parentheses. -/
def stripChar (c : Char) : Bool :=
  isJsWhitespace c || c = '-' || c = '(' || c = ')'

/-- The regex character class `[\d\s\-\(\)]`: digits plus the strippable
characters. -/
def isPhoneClass (c : Char) : Bool :=
  c.isDigit || stripChar c

/-- Maximal run of class characters at the head of `l` (what the greedy
`[\d\s\-\(\)]{7,15}` consumes, before the 15-cap). -/
def phoneClassRun (l : List Char) : List Char :=
  l.takeWhile isPhoneClass

/-- Attempt of `\+?[\d\s\-\(\)]{7,15}` anchored at the head of `l`:
an optional leading `+` (a `+` that is not followed by 7 class characters
cannot be rescued by backtracking, because `+` itself is not in the class),
then at least 7 and greedily at most 15 class characters. -/
def matchAt (l : List Char) : Option (List Char) :=
  match l with
  | [] => none
  | c :: rest =>
    if c = '+' then
      let run := phoneClassRun rest
      if 7 ≤ run.length then some ('+' :: run.take 15) else none
    else
      let run := phoneClassRun (c :: rest)
      if 7 ≤ run.length then some (run.take 15) else none

/-- First (leftmost) match of the phone regex in `l`, scanning start
positions left to right as the JS engine does. -/
def firstMatch : List Char → Option (List Char)
  | [] => none
  | c :: rest =>
    match matchAt (c :: rest) with
    | some m => some m
    | none => firstMatch rest

/-- `extractPhoneNumber` from the source: take the first regex match and
strip whitespace, hyphens, and parentheses from it; `none` when the
payload has no match (the JS function returns `null`). -/
def extractPhoneNumber (s : List Char) : Option (List Char) :=
  match firstMatch s with
  | some m => some (m.filter (fun c => !(stripChar c)))
  | none => none

example : extractPhoneNumber "call me at (555) 123-4567 please".data
    = some "5551234567".data := by decide

example : extractPhoneNumber "no digits here".data = none := by decide

example : extractPhoneNumber "+1 800 555 0199".data
    = some "+18005550199".data := by decide

example : extractPhoneNumber (List.replicate 7 ' ') = some [] := by decide

/-! ## Data model and session state -/

/-- The `MqttMessage` record of the source: topic, raw payload, receipt
timestamp (modelled as a natural number), and the optional extracted
phone number (the source's `phoneNumber?: string`). -/
structure MqttMessage where
  topic : List Char
  message : List Char
  timestamp : Nat
  phoneNumber : Option (List Char)
deriving DecidableEq

/-- User-visible notifications (toasts) and the call-trigger invocation
emitted by the session's event handlers. -/
inductive Note where
  | connectedSubscribed
  | subscribeFailed
  | phoneDetected (n : List Char)
  | callTriggered (n : List Char)
  | connectionError
deriving DecidableEq

/-- Component state of the source: the `isConnected` flag, the
`showSettings` flag, the bounded message list, and `clientRef` (the MQTT
client handle, `none` when released; the handle itself is abstracted to a
number).  The connection `Config` is user-edited form state that none of
the verified behaviour reads, so it is not carried here. -/
structure AppState where
  isConnected : Bool
  showSettings : Bool
  messages : List MqttMessage
  clientRef : Option Nat
deriving DecidableEq

/-- Transport events delivered by the MQTT client library.  The outcome
of the asynchronous `subscribe` callback run by the connect handler is
folded into the `connected` event as `subErr` (whether the subscription
failed). -/
inductive TransportEvent where
  | connected (subErr : Bool)
  | message (topic : List Char) (payload : List Char) (ts : Nat)
  | errored
  | closed
deriving DecidableEq

/-- JS truthiness of the extractor result as used by
`phoneNumber || undefined` and `if (phoneNumber)`: `null` and the empty
string are falsy, every other string is truthy. -/
def jsTruthy (o : Option (List Char)) : Bool :=
  match o with
  | none => false
  | some s => !s.isEmpty

/-- Message-log append from the source's
`setMessages(prev => [mqttMessage, ...prev.slice(0, 49)])`: insert at the
front and keep at most the first 49 previous entries. -/
def appendMsg (msgRec : MqttMessage) (log : List MqttMessage) :
    List MqttMessage :=
  msgRec :: log.take 49

/-- The `client.on('message')` handler: decode the payload, run the
extractor, build the record (`phoneNumber || undefined` attaches the
number only when truthy), append it to the log, and when the number is
truthy emit the detection toast and invoke the call trigger. -/
def handleMessage (topic payload : List Char) (ts : Nat)
    (log : List MqttMessage) : List MqttMessage × List Note :=
  let phoneNumber := extractPhoneNumber payload
  let mqttMessage : MqttMessage :=
    { topic := topic, message := payload, timestamp := ts,
      phoneNumber := if jsTruthy phoneNumber then phoneNumber else none }
  (appendMsg mqttMessage log,
   if jsTruthy phoneNumber then
     [Note.phoneDetected (phoneNumber.getD []),
      Note.callTriggered (phoneNumber.getD [])]
   else [])

/-- One step of the session's event wiring (`client.on(...)` handlers):
`connect` sets the flag and subscribes (toasting success or failure),
`message` runs `handleMessage`, `error` only toasts, `close` clears the
flag. -/
def stepEvent (st : AppState) (e : TransportEvent) : AppState × List Note :=
  match e with
  | .connected subErr =>
    ({ st with isConnected := true, showSettings := false },
     if subErr then [Note.subscribeFailed] else [Note.connectedSubscribed])
  | .message topic payload ts =>
    let res := handleMessage topic payload ts st.messages
    ({ st with messages := res.1 }, res.2)
  | .errored => (st, [Note.connectionError])
  | .closed => ({ st with isConnected := false }, [])

/-- Run a sequence of transport events, tracking the session state. -/
def runEvents (st : AppState) (evs : List TransportEvent) : AppState :=
  evs.foldl (fun s e => (stepEvent s e).1) st

/-- True exactly for inbound `message` events. -/
def isMessageEvent (e : TransportEvent) : Bool :=
  match e with
  | .message _ _ _ => true
  | _ => false

/-! ## Disconnect and the call trigger -/

/-- Side effects of `disconnect`: ending the transport client and the
"Disconnected" toast. -/
inductive DiscEffect where
  | endClient
  | toastDisconnected
deriving DecidableEq

/-- The `disconnect` function of the source: when a live handle exists,
end it, null the ref, clear the flag, and toast; otherwise do nothing. -/
def disconnect (st : AppState) : AppState × List DiscEffect :=
  match st.clientRef with
  | some _ =>
    ({ st with clientRef := none, isConnected := false },
     [DiscEffect.endClient, DiscEffect.toastDisconnected])
  | none => (st, [])

/-- Side effects of `makePhoneCall`: the development-mode toast and
console log, the `window.open('tel:...')` platform invocation, and the
failure toast of the catch handler. -/
inductive CallEffect where
  | toastCallTriggered (n : List Char)
  | consoleWouldCall (n : List Char)
  | openTelUri (n : List Char)
  | toastCallFailed (n : List Char)
deriving DecidableEq

/-- JS `hay.includes(needle)`: `needle` occurs contiguously in `hay`. -/
def hasSub (hay needle : List Char) : Bool :=
  match hay with
  | [] => needle.isEmpty
  | _ :: rest => List.isPrefixOf needle hay || hasSub rest needle

/-- The development-host check of the source:
`hostname === 'localhost' || hostname.includes('lovableproject.com')`. -/
def isDevHost (host : List Char) : Bool :=
  host == "localhost".data || hasSub host "lovableproject.com".data

/-- The `makePhoneCall` function: on a development host, only toast and
log the number that would be called; otherwise invoke the platform `tel:`
URI open.  The whole body runs in a try/catch, modelled by `openThrows`
(whether the platform invocation throws): a throw is absorbed and
surfaced as the failure toast, so the function is total and no error
reaches the caller. -/
def makePhoneCall (host : List Char) (phoneNumber : List Char)
    (openThrows : Bool) : List CallEffect :=
  if isDevHost host then
    [CallEffect.toastCallTriggered phoneNumber,
     CallEffect.consoleWouldCall phoneNumber]
  else if openThrows then
    [CallEffect.openTelUri phoneNumber, CallEffect.toastCallFailed phoneNumber]
  else
    [CallEffect.openTelUri phoneNumber]

/-- Shape of a cleaned extractor result: an optional leading plus sign
followed by decimal digits only (so a plus sign never occurs past the
first position), where the digit part may be empty. -/
def plusDigitShape (r : List Char) : Bool :=
  match r with
  | [] => true
  | c :: t => (c.isDigit || c = '+') && t.all Char.isDigit

/-- Initial component state of the source: disconnected, settings shown,
no messages, no client handle. -/
def initialState : AppState :=
  { isConnected := false, showSettings := true, messages := [], clientRef := none }

/-! ## Helper lemmas about the matcher -/

lemma take_of_takeWhile_le (p : Char → Bool) :
    ∀ (l : List Char) (n : Nat), n ≤ (l.takeWhile p).length →
      (l.take n).length = n ∧ (l.take n).all p = true := by
  intro l
  induction l with
  | nil =>
    intro n hn
    simp only [List.takeWhile_nil, List.length_nil, Nat.le_zero] at hn
    subst hn
    simp
  | cons c t ih =>
    intro n hn
    by_cases hc : p c = true
    · cases n with
      | zero => simp
      | succ k =>
        rw [List.takeWhile_cons, if_pos hc] at hn
        simp only [List.length_cons, Nat.succ_le_succ_iff] at hn
        obtain ⟨h1, h2⟩ := ih k hn
        refine ⟨?_, ?_⟩
        · simp [List.take_succ_cons, h1]
        · simp [List.take_succ_cons, hc, h2]
    · rw [List.takeWhile_cons, if_neg hc] at hn
      simp only [List.length_nil, Nat.le_zero] at hn
      subst hn
      simp

lemma matchAt_window (l m : List Char) (h : matchAt l = some m) :
    ((l.take 7).length = 7 ∧ (l.take 7).all isPhoneClass = true)
    ∨ (((l.drop 1).take 7).length = 7
        ∧ ((l.drop 1).take 7).all isPhoneClass = true) := by
  cases l with
  | nil => simp [matchAt] at h
  | cons c rest =>
    by_cases hc : c = '+'
    · right
      simp only [matchAt, if_pos hc, phoneClassRun] at h
      by_cases hr : 7 ≤ (rest.takeWhile isPhoneClass).length
      · simpa using take_of_takeWhile_le isPhoneClass rest 7 hr
      · rw [if_neg hr] at h
        exact absurd h (by simp)
    · left
      simp only [matchAt, if_neg hc, phoneClassRun] at h
      by_cases hr : 7 ≤ ((c :: rest).takeWhile isPhoneClass).length
      · exact take_of_takeWhile_le isPhoneClass (c :: rest) 7 hr
      · rw [if_neg hr] at h
        exact absurd h (by simp)

lemma matchAt_shape (l m : List Char) (h : matchAt l = some m) :
    ∃ w, (m = '+' :: w ∨ m = w) ∧ w.all isPhoneClass = true := by
  have hall : ∀ t : List Char, ((t.takeWhile isPhoneClass).take 15).all isPhoneClass = true := by
    intro t
    rw [List.all_eq_true]
    intro x hx
    exact List.mem_takeWhile_imp (List.take_subset 15 _ hx)
  cases l with
  | nil => simp [matchAt] at h
  | cons c rest =>
    by_cases hc : c = '+'
    · simp only [matchAt, if_pos hc, phoneClassRun] at h
      by_cases hr : 7 ≤ (rest.takeWhile isPhoneClass).length
      · rw [if_pos hr] at h
        exact ⟨(rest.takeWhile isPhoneClass).take 15,
          Or.inl (Option.some.inj h).symm, hall rest⟩
      · rw [if_neg hr] at h
        exact absurd h (by simp)
    · simp only [matchAt, if_neg hc, phoneClassRun] at h
      by_cases hr : 7 ≤ (((c :: rest).takeWhile isPhoneClass)).length
      · rw [if_pos hr] at h
        exact ⟨((c :: rest).takeWhile isPhoneClass).take 15,
          Or.inr (Option.some.inj h).symm, hall (c :: rest)⟩
      · rw [if_neg hr] at h
        exact absurd h (by simp)

lemma firstMatch_eq_some (s : List Char) (m : List Char)
    (h : firstMatch s = some m) :
    ∃ i, matchAt (s.drop i) = some m
      ∧ ∀ j, j < i → matchAt (s.drop j) = none := by
  induction s with
  | nil => simp [firstMatch] at h
  | cons c rest ih =>
    rw [firstMatch] at h
    cases hm : matchAt (c :: rest) with
    | some m2 =>
      rw [hm] at h
      refine ⟨0, ?_, by omega⟩
      simpa [hm] using h
    | none =>
      rw [hm] at h
      obtain ⟨i, hi, hmin⟩ := ih h
      refine ⟨i + 1, by simpa [List.drop_succ_cons] using hi, ?_⟩
      intro j hj
      cases j with
      | zero => simpa using hm
      | succ k =>
        rw [List.drop_succ_cons]
        exact hmin k (by omega)

lemma firstMatch_eq_none (s : List Char) (h : firstMatch s = none) :
    ∀ i, matchAt (s.drop i) = none := by
  induction s with
  | nil => intro i; simp [matchAt]
  | cons c rest ih =>
    rw [firstMatch] at h
    cases hm : matchAt (c :: rest) with
    | some m2 => rw [hm] at h; exact absurd h (by simp)
    | none =>
      rw [hm] at h
      intro i
      cases i with
      | zero => simpa using hm
      | succ k => rw [List.drop_succ_cons]; exact ih h k

lemma all_digit_filter (w : List Char) (hw : w.all isPhoneClass = true) :
    (w.filter (fun c => !(stripChar c))).all Char.isDigit = true := by
  rw [List.all_eq_true]
  intro x hx
  obtain ⟨hmem, hkeep⟩ := List.mem_filter.1 hx
  have hclass : isPhoneClass x = true := (List.all_eq_true.1 hw) x hmem
  simp only [isPhoneClass, Bool.or_eq_true] at hclass
  rcases hclass with hd | hs
  · exact hd
  · simp [hs] at hkeep

lemma plusDigitShape_of_digits (r : List Char)
    (h : r.all Char.isDigit = true) : plusDigitShape r = true := by
  cases r with
  | nil => rfl
  | cons c t =>
    simp only [List.all_cons, Bool.and_eq_true] at h
    simp [plusDigitShape, h.1, h.2]

/-! ## Claim theorems -/

/-- Claim C1: for every input string `s`, the extractor returns a string
only if `s` contains a substring of 7 characters (hence one of length
between 7 and 15) drawn from the class of digits, whitespace, hyphens,
and parentheses; when it returns a string, that string is the first regex
match with all whitespace, hyphens, and parentheses stripped, and so
contains none of those characters; when no position of `s` matches, it
returns `none` rather than an error. -/
theorem extractPhoneNumber_sound (s : List Char) :
    (∀ r, extractPhoneNumber s = some r →
      ((∃ i, ((s.drop i).take 7).length = 7
          ∧ ((s.drop i).take 7).all isPhoneClass = true)
        ∧ r.all (fun c => !(stripChar c)) = true
        ∧ ∃ i m, matchAt (s.drop i) = some m
            ∧ (∀ j, j < i → matchAt (s.drop j) = none)
            ∧ r = m.filter (fun c => !(stripChar c))))
    ∧ ((∀ i, matchAt (s.drop i) = none) → extractPhoneNumber s = none) := by
  constructor
  · intro r hr
    rw [extractPhoneNumber] at hr
    cases hfm : firstMatch s with
    | none => rw [hfm] at hr; exact absurd hr (by simp)
    | some m =>
      rw [hfm] at hr
      have hrm : r = m.filter (fun c => !(stripChar c)) :=
        (Option.some.inj hr).symm
      obtain ⟨i, hi, hmin⟩ := firstMatch_eq_some s m hfm
      refine ⟨?_, ?_, i, m, hi, hmin, hrm⟩
      · rcases matchAt_window (s.drop i) m hi with hw | hw
        · exact ⟨i, hw⟩
        · refine ⟨i + 1, ?_⟩
          rw [List.drop_drop] at hw
          exact hw
      · rw [hrm, List.all_eq_true]
        intro x hx
        exact (List.mem_filter.1 hx).2
  · intro hall
    rw [extractPhoneNumber]
    cases hfm : firstMatch s with
    | none => rfl
    | some m =>
      obtain ⟨i, hi, _⟩ := firstMatch_eq_some s m hfm
      rw [hall i] at hi
      exact absurd hi (by simp)

/-- Witness for C1: the first part at the input `"+1 800 555 0199"`, whose
extraction is `"+18005550199"`, and the second part at `"no digits here"`,
which has no match at any position. -/
theorem extractPhoneNumber_sound_witness :
    ((∃ i, (("+1 800 555 0199".data.drop i).take 7).length = 7
        ∧ (("+1 800 555 0199".data.drop i).take 7).all isPhoneClass = true)
      ∧ "+18005550199".data.all (fun c => !(stripChar c)) = true
      ∧ ∃ i m, matchAt ("+1 800 555 0199".data.drop i) = some m
          ∧ (∀ j, j < i → matchAt ("+1 800 555 0199".data.drop j) = none)
          ∧ "+18005550199".data = m.filter (fun c => !(stripChar c)))
    ∧ extractPhoneNumber "no digits here".data = none :=
  ⟨(extractPhoneNumber_sound "+1 800 555 0199".data).1 "+18005550199".data
      (by decide),
   (extractPhoneNumber_sound "no digits here".data).2
      (firstMatch_eq_none "no digits here".data (by decide))⟩

/-- Claim C8: the extractor maps the three specified example inputs to the
specified outputs: `"call me at (555) 123-4567 please"` yields
`"5551234567"`, `"no digits here"` yields `none`, and
`"+1 800 555 0199"` yields `"+18005550199"`. -/
theorem extractPhoneNumber_examples :
    extractPhoneNumber "call me at (555) 123-4567 please".data
        = some "5551234567".data
    ∧ extractPhoneNumber "no digits here".data = none
    ∧ extractPhoneNumber "+1 800 555 0199".data
        = some "+18005550199".data :=
  ⟨by decide, by decide, by decide⟩

/-- Claim C10: every non-`none` extractor result is an optional leading
plus sign followed by zero or more decimal digits and nothing else (a plus
sign never occurs past the first position), and the digit part may be
empty: on a run of seven spaces the extractor returns a non-`none` string
containing no digit at all (the empty string). -/
theorem extractPhoneNumber_shape :
    (∀ s r, extractPhoneNumber s = some r → plusDigitShape r = true)
    ∧ extractPhoneNumber (List.replicate 7 ' ') = some [] := by
  constructor
  · intro s r hr
    rw [extractPhoneNumber] at hr
    cases hfm : firstMatch s with
    | none => rw [hfm] at hr; exact absurd hr (by simp)
    | some m =>
      rw [hfm] at hr
      have hrm : r = m.filter (fun c => !(stripChar c)) :=
        (Option.some.inj hr).symm
      obtain ⟨i, hi, _⟩ := firstMatch_eq_some s m hfm
      obtain ⟨w, hshape, hw⟩ := matchAt_shape (s.drop i) m hi
      rcases hshape with hm | hm
      · subst hm
        have hplus : stripChar '+' = false := by decide
        have hf : List.filter (fun c => !(stripChar c)) ('+' :: w)
            = '+' :: List.filter (fun c => !(stripChar c)) w := by
          simp [List.filter_cons, hplus]
        rw [hf] at hrm
        subst hrm
        simp [plusDigitShape, all_digit_filter w hw]
      · subst hm
        subst hrm
        exact plusDigitShape_of_digits _ (all_digit_filter _ hw)
  · decide

/-- Witness for C10: the extractor applied to seven spaces returns the
empty string, which has the optional-plus-then-digits shape. -/
theorem extractPhoneNumber_shape_witness : plusDigitShape [] = true :=
  extractPhoneNumber_shape.1 (List.replicate 7 ' ') [] (by decide)

/-- Bounded-fold invariant of the message log: starting from a log of at
most 50 entries, folding appends yields the newest-first prefix of length
at most 50 of all records ever seen. -/
lemma foldl_appendMsg (rs : List MqttMessage) :
    ∀ acc : List MqttMessage, acc.length ≤ 50 →
      rs.foldl (fun l r => appendMsg r l) acc = (rs.reverse ++ acc).take 50 := by
  induction rs with
  | nil =>
    intro acc hacc
    simp [List.take_of_length_le hacc]
  | cons r rest ih =>
    intro acc hacc
    have hlen : (appendMsg r acc).length ≤ 50 := by
      simp only [appendMsg, List.length_cons, List.length_take]
      omega
    rw [List.foldl_cons, ih (appendMsg r acc) hlen]
    have hsplit : ∀ k, k ≤ 50 →
        (r :: acc.take 49).take k = (r :: acc).take k := by
      intro k hk
      cases k with
      | zero => simp
      | succ k2 =>
        rw [List.take_succ_cons, List.take_succ_cons, List.take_take]
        have hmin : k2 ⊓ 49 = k2 := by omega
        rw [hmin]
    have hR : (r :: rest).reverse ++ acc = rest.reverse ++ (r :: acc) := by
      simp
    rw [hR]
    have hL : rest.reverse ++ appendMsg r acc
        = rest.reverse ++ (r :: acc.take 49) := rfl
    rw [hL, List.take_append_eq_append_take, List.take_append_eq_append_take]
    rw [hsplit (50 - rest.reverse.length) (by omega)]

/-- Claim C2: the message log never exceeds 50 entries and is never
reordered: an append inserts the new record at the front and keeps exactly
the first 49 previous entries (evicting everything beyond 50) in their
order; and folding 51 appends into the empty log leaves exactly 50
entries, namely all but the oldest record, newest first. -/
theorem messageLog_bounded :
    (∀ (m : MqttMessage) (log : List MqttMessage),
      (appendMsg m log).length ≤ 50
      ∧ (appendMsg m log).head? = some m
      ∧ (appendMsg m log).tail = log.take 49)
    ∧ (∀ rs : List MqttMessage, rs.length = 51 →
        (rs.foldl (fun l r => appendMsg r l) []).length = 50
        ∧ rs.foldl (fun l r => appendMsg r l) [] = (rs.drop 1).reverse) := by
  constructor
  · intro m log
    refine ⟨?_, rfl, rfl⟩
    simp only [appendMsg, List.length_cons, List.length_take]
    omega
  · intro rs hrs
    have hfold := foldl_appendMsg rs [] (by simp)
    have hrev : (rs.drop 1).reverse = (rs.reverse).take 50 := by
      rw [List.reverse_drop, hrs]
    have heq : rs.foldl (fun l r => appendMsg r l) [] = (rs.drop 1).reverse := by
      rw [hfold, hrev]
      simp
    refine ⟨?_, heq⟩
    rw [heq]
    simp only [List.length_reverse, List.length_drop, hrs]

/-- Witness for C2: folding 51 concrete records into the empty log leaves
exactly 50 entries. -/
theorem messageLog_bounded_witness :
    (((List.range 51).map (fun k => MqttMessage.mk [] [] k none)).foldl
        (fun l r => appendMsg r l) []).length = 50 :=
  (messageLog_bounded.2 ((List.range 51).map (fun k => MqttMessage.mk [] [] k none))
    (by simp)).1

/-- Claim C3: every inbound message builds a record with the receipt
timestamp and the decoded payload and appends it to the log exactly once
(the new log is that record in front of the first 49 old entries, in every
case); when a number is found (extractor result non-`none` and non-empty,
the pipeline's truthiness test, see C9) the number is attached to the
record, the detection notification is emitted, and the call trigger is
invoked; when no number is found the record is logged without an attached
number and nothing else happens — absence is not an error. -/
theorem message_pipeline (topic payload : List Char) (ts : Nat)
    (log : List MqttMessage) :
    ((handleMessage topic payload ts log).1.tail = log.take 49)
    ∧ (∃ pn, (handleMessage topic payload ts log).1
        = { topic := topic, message := payload, timestamp := ts,
            phoneNumber := pn } :: log.take 49)
    ∧ (∀ r, extractPhoneNumber payload = some r → r ≠ [] →
        (handleMessage topic payload ts log).1
          = { topic := topic, message := payload, timestamp := ts,
              phoneNumber := some r } :: log.take 49
        ∧ (handleMessage topic payload ts log).2
          = [Note.phoneDetected r, Note.callTriggered r])
    ∧ (extractPhoneNumber payload = none →
        (handleMessage topic payload ts log).1
          = { topic := topic, message := payload, timestamp := ts,
              phoneNumber := none } :: log.take 49
        ∧ (handleMessage topic payload ts log).2 = []) := by
  refine ⟨?_, ?_, ?_, ?_⟩
  · cases hpn : extractPhoneNumber payload <;>
      simp [handleMessage, appendMsg, hpn]
  · exact ⟨if jsTruthy (extractPhoneNumber payload) then
        extractPhoneNumber payload else none, rfl⟩
  · intro r hr hne
    have htr : jsTruthy (some r) = true := by
      cases r with
      | nil => exact absurd rfl hne
      | cons c t => rfl
    constructor
    · simp [handleMessage, appendMsg, hr, htr]
    · simp [handleMessage, hr, htr]
  · intro hr
    have htr : jsTruthy (extractPhoneNumber payload) = false := by
      rw [hr]; rfl
    constructor
    · simp [handleMessage, appendMsg, htr, hr]
    · simp [handleMessage, htr]

/-- Witness for C3: the pipeline on payload `"+1 800 555 0199"` attaches
the extracted number `"+18005550199"`, emits the detection notification,
and invokes the call trigger. -/
theorem message_pipeline_witness :
    (handleMessage [] "+1 800 555 0199".data 0 []).1
      = [{ topic := [], message := "+1 800 555 0199".data, timestamp := 0,
           phoneNumber := some "+18005550199".data }]
    ∧ (handleMessage [] "+1 800 555 0199".data 0 []).2
      = [Note.phoneDetected "+18005550199".data,
         Note.callTriggered "+18005550199".data] :=
  (message_pipeline [] "+1 800 555 0199".data 0 []).2.2.1
    "+18005550199".data (by decide) (by decide)

/-- Claim C9: the call trigger is invoked, and a number attached to the
logged record, exactly when the extractor result is non-`none` and
non-empty; an extracted empty string — which happens e.g. on a payload of
seven spaces — is treated exactly like not-found: the record is logged
with no attached number and no call is triggered. -/
theorem truthiness_gate (topic payload : List Char) (ts : Nat)
    (log : List MqttMessage) :
    ((∃ r, Note.callTriggered r ∈ (handleMessage topic payload ts log).2)
      ↔ (∃ r, extractPhoneNumber payload = some r ∧ r ≠ []))
    ∧ ((∃ msgRec rest, (handleMessage topic payload ts log).1 = msgRec :: rest
          ∧ msgRec.phoneNumber ≠ none)
      ↔ (∃ r, extractPhoneNumber payload = some r ∧ r ≠ []))
    ∧ extractPhoneNumber (List.replicate 7 ' ') = some []
    ∧ (handleMessage topic (List.replicate 7 ' ') ts log).2 = []
    ∧ (∃ msgRec rest,
        (handleMessage topic (List.replicate 7 ' ') ts log).1 = msgRec :: rest
        ∧ msgRec.phoneNumber = none) := by
  have hgate : ∀ q : List Char,
      (jsTruthy (extractPhoneNumber q) = true)
        ↔ (∃ r, extractPhoneNumber q = some r ∧ r ≠ []) := by
    intro q
    cases hq : extractPhoneNumber q with
    | none => simp [jsTruthy]
    | some r =>
      cases r with
      | nil => simp [jsTruthy]
      | cons c t => simp [jsTruthy]
  have hsp : jsTruthy (extractPhoneNumber [' ', ' ', ' ', ' ', ' ', ' ', ' '])
      = false := by decide
  have hrep : List.replicate 7 ' ' = [' ', ' ', ' ', ' ', ' ', ' ', ' '] := rfl
  refine ⟨?_, ?_, by decide, ?_, ?_⟩
  · cases hq : extractPhoneNumber payload with
    | none => simp [handleMessage, hq, jsTruthy]
    | some r =>
      cases r with
      | nil => simp [handleMessage, hq, jsTruthy]
      | cons c t => simp [handleMessage, hq, jsTruthy]
  · cases hq : extractPhoneNumber payload with
    | none => simp [handleMessage, appendMsg, hq, jsTruthy]
    | some r =>
      cases r with
      | nil => simp [handleMessage, appendMsg, hq, jsTruthy]
      | cons c t =>
        constructor
        · intro _
          exact ⟨c :: t, rfl, by simp⟩
        · intro _
          refine ⟨MqttMessage.mk topic payload ts
              (if jsTruthy (extractPhoneNumber payload) then
                extractPhoneNumber payload else none),
            log.take 49, rfl, ?_⟩
          simp [hq, jsTruthy]
  · rw [hrep]
    simp [handleMessage, hsp]
  · rw [hrep]
    refine ⟨MqttMessage.mk topic [' ', ' ', ' ', ' ', ' ', ' ', ' '] ts
        (if jsTruthy (extractPhoneNumber [' ', ' ', ' ', ' ', ' ', ' ', ' '])
          then extractPhoneNumber [' ', ' ', ' ', ' ', ' ', ' ', ' ']
          else none),
      log.take 49, rfl, ?_⟩
    simp [hsp]

/-- Claim C4: on a development/preview host the call trigger never invokes
the platform `tel:` mechanism and emits exactly the notification and the
diagnostic log; on a production host it invokes the mechanism exactly
once per call; a throw of the invocation is absorbed locally and surfaced
as the failure notification (`makePhoneCall` is total — the wrapped
try/catch means no error ever reaches the caller). -/
theorem makePhoneCall_modes (host pn : List Char) (openThrows : Bool) :
    (isDevHost host = true →
      makePhoneCall host pn openThrows
        = [CallEffect.toastCallTriggered pn, CallEffect.consoleWouldCall pn]
      ∧ (makePhoneCall host pn openThrows).count (CallEffect.openTelUri pn) = 0)
    ∧ (isDevHost host = false →
      (makePhoneCall host pn openThrows).count (CallEffect.openTelUri pn) = 1)
    ∧ (isDevHost host = false → openThrows = true →
      CallEffect.toastCallFailed pn ∈ makePhoneCall host pn openThrows) := by
  refine ⟨?_, ?_, ?_⟩
  · intro hdev
    refine ⟨by simp [makePhoneCall, hdev], ?_⟩
    simp [makePhoneCall, hdev, List.count_cons]
  · intro hdev
    cases openThrows <;> simp [makePhoneCall, hdev, List.count_cons]
  · intro hdev hthrow
    subst hthrow
    simp [makePhoneCall, hdev]

/-- Witness for C4: on the development host `localhost` the trigger only
toasts and logs; on the production host `example.com` with a throwing
invocation it opens the `tel:` URI once and surfaces the failure toast. -/
theorem makePhoneCall_modes_witness :
    (makePhoneCall "localhost".data "5551234567".data false
        = [CallEffect.toastCallTriggered "5551234567".data,
           CallEffect.consoleWouldCall "5551234567".data]
      ∧ (makePhoneCall "localhost".data "5551234567".data false).count
          (CallEffect.openTelUri "5551234567".data) = 0)
    ∧ (makePhoneCall "example.com".data "5551234567".data true).count
        (CallEffect.openTelUri "5551234567".data) = 1
    ∧ CallEffect.toastCallFailed "5551234567".data
        ∈ makePhoneCall "example.com".data "5551234567".data true :=
  ⟨(makePhoneCall_modes "localhost".data "5551234567".data false).1 (by decide),
   (makePhoneCall_modes "example.com".data "5551234567".data true).2.1 (by decide),
   (makePhoneCall_modes "example.com".data "5551234567".data true).2.2
     (by decide) rfl⟩

/-- Claim C5: in any event sequence where a `connected` event is followed
(after any events, in particular message events) by a final `closed`
event, the session ends Disconnected (`isConnected = false`); moreover
message handling never changes the connection status. -/
theorem connected_then_closed (st0 : AppState)
    (pre mid : List TransportEvent) (subErr : Bool)
    (hmid : ∀ e ∈ mid, isMessageEvent e = true) :
    (runEvents st0 (pre ++ [TransportEvent.connected subErr] ++ mid
        ++ [TransportEvent.closed])).isConnected = false
    ∧ ∀ (st : AppState) (e : TransportEvent), isMessageEvent e = true →
        (stepEvent st e).1.isConnected = st.isConnected := by
  constructor
  · rw [runEvents, List.foldl_append]
    rfl
  · intro st e he
    cases e with
    | message topic payload ts => rfl
    | connected subErr2 => simp [isMessageEvent] at he
    | errored => simp [isMessageEvent] at he
    | closed => simp [isMessageEvent] at he

/-- Witness for C5: starting from the initial state, a `connected` event
followed by one message event and then `closed` leaves the session
Disconnected. -/
theorem connected_then_closed_witness :
    (runEvents initialState ([] ++ [TransportEvent.connected false]
        ++ [TransportEvent.message [] "hello".data 0]
        ++ [TransportEvent.closed])).isConnected = false :=
  (connected_then_closed initialState []
    [TransportEvent.message [] "hello".data 0] false (by decide)).1

/-- Claim C6: when the subscribe callback reports a failure after a
successful `connected` transport event, the session emits the
user-visible subscription-failure notification but `isConnected` remains
`true` — the failure does not revert the status transition performed on
connect. -/
theorem subscribeFailure_keeps_connected (st : AppState) :
    ((stepEvent st (TransportEvent.connected true)).1.isConnected = true)
    ∧ ((stepEvent st (TransportEvent.connected true)).2
        = [Note.subscribeFailed]) :=
  ⟨rfl, rfl⟩

/-- Claim C7: `disconnect` is idempotent: when a live handle exists it
ends the transport, nulls the handle, clears the status, and toasts; and
immediately calling `disconnect` again on the resulting state performs no
transport operation, changes no state, and emits no second notification
(and the same holds after a first call on a state with no handle). -/
theorem disconnect_idempotent (st : AppState) :
    (∀ h, st.clientRef = some h →
      disconnect st = ({ st with clientRef := none, isConnected := false },
        [DiscEffect.endClient, DiscEffect.toastDisconnected]))
    ∧ disconnect ((disconnect st).1) = ((disconnect st).1, []) := by
  constructor
  · intro h hh
    simp [disconnect, hh]
  · cases hc : st.clientRef with
    | none => simp [disconnect, hc]
    | some h => simp [disconnect, hc]

/-- Witness for C7: disconnecting a connected state with a live handle
releases the handle, clears the status, and emits the two effects. -/
theorem disconnect_idempotent_witness :
    disconnect (AppState.mk true false [] (some 1))
      = (AppState.mk false false [] none,
         [DiscEffect.endClient, DiscEffect.toastDisconnected]) :=
  (disconnect_idempotent (AppState.mk true false [] (some 1))).1 1 rfl
